import Mathlib

/-!
Formal model of `eval.py` from the `preimage-attacks` benchmarking harness.

The file shallowly embeds the four functions of `eval.py` — `log_ticks`,
`plot_stats`, `plot_factors_vs_difficulty` and `eval_solver` — as pure Lean
functions.  External collaborators (the solve entry point `main`, the factor
loader `load_factors`, the `log10` transform and the colour map) are taken as
parameters; machine floats are idealised as rationals; raising an exception is
modelled with `Except` / `Option`; side effects (file writes, printed
diagnostics) are returned as data.
-/

namespace EvalPy

/-- Per-dataset stats fragment returned by the external solve collaborator
(`main(dataset, solver)` in `eval.py`). -/
structure StatsFragment where
  problem_size : List Int
  difficulty : List Int
  runtime : List Rat
  success : List Bool
deriving DecidableEq

/-- Accumulated run-level record built by `eval_solver` (the `total_stats`
dict, `eval.py` lines 98-104). -/
structure RunRecord where
  solver : String
  problem_size : List Int
  difficulty : List Int
  runtime : List Rat
  success : List Bool
deriving DecidableEq

/-- Observable outcome of `eval_solver`: the checkpoint file it writes
(name and content, lines 117-120) and the record it returns (line 121). -/
structure EvalOutput where
  stats_file : String
  written : RunRecord
  result : RunRecord
deriving DecidableEq

def statsFileSuffix : String := "_stats.yaml"

def indexErrorMsg : String := "IndexError"

/-- Concrete solver identifier used in witness instantiations. -/
def solverA : String := "solverA"

/-- Accumulation step `total_stats[k] += stats[k]` for the four measurement
keys (`eval.py` lines 112-115). -/
def appendStats (t : RunRecord) (s : StatsFragment) : RunRecord :=
  { t with
    problem_size := t.problem_size ++ s.problem_size
    difficulty := t.difficulty ++ s.difficulty
    runtime := t.runtime ++ s.runtime
    success := t.success ++ s.success }

/-- Initial `total_stats` dict (lines 98-104). -/
def initStats (solver : String) : RunRecord :=
  ⟨solver, [], [], [], []⟩

/-- Loop of `eval_solver` (lines 106-115).  Datasets are consumed together
with `difficulties[i]`: the `print` before the `try` indexes `difficulties`,
so a too-short difficulty list raises an IndexError that the bare `except`
does not cover (it only guards the `main` call), modelled as `Except.error`.
A solve failure (`solve d = none`) hits `except: break`, ending the loop with
the record accumulated so far. -/
def evalLoop {D : Type} (solve : D → Option StatsFragment) :
    List D → List Int → RunRecord → Except String RunRecord
  | [], _, t => Except.ok t
  | _ :: _, [], _ => Except.error indexErrorMsg
  | d :: ds, _ :: diffs, t =>
    match solve d with
    | none => Except.ok t
    | some s => evalLoop solve ds diffs (appendStats t s)

/-- Model of `eval_solver(solver, datasets, difficulties)` (lines 97-121):
run the sweep loop, then write the solver-named checkpoint file with the
accumulated record and return that record. -/
def eval_solver {D : Type} (solve : D → Option StatsFragment) (solver : String)
    (datasets : List D) (difficulties : List Int) : Except String EvalOutput :=
  match evalLoop solve datasets difficulties (initStats solver) with
  | Except.error e => Except.error e
  | Except.ok t => Except.ok ⟨solver ++ statsFileSuffix, t, t⟩

/-- Fragments returned for the maximal prefix of datasets on which the solve
collaborator succeeds (derived notion used to characterise `eval_solver`). -/
def successFragments {D : Type} (solve : D → Option StatsFragment) :
    List D → List StatsFragment
  | [] => []
  | d :: ds =>
    match solve d with
    | none => []
    | some s => s :: successFragments solve ds

/-- The four measurement sequences of a record have a common length. -/
def recEqLens (t : RunRecord) : Prop :=
  t.difficulty.length = t.problem_size.length ∧
  t.runtime.length = t.problem_size.length ∧
  t.success.length = t.problem_size.length

/-- The four lists of a fragment have a common length. -/
def fragEqLens (s : StatsFragment) : Prop :=
  s.difficulty.length = s.problem_size.length ∧
  s.runtime.length = s.problem_size.length ∧
  s.success.length = s.problem_size.length

instance (t : RunRecord) : Decidable (recEqLens t) := by
  unfold recEqLens; infer_instance

instance (s : StatsFragment) : Decidable (fragEqLens s) := by
  unfold fragEqLens; infer_instance

lemma evalLoop_eq_ok {D : Type} (solve : D → Option StatsFragment) :
    ∀ (ds : List D) (diffs : List Int) (t : RunRecord), ds.length ≤ diffs.length →
      evalLoop solve ds diffs t =
        Except.ok ((successFragments solve ds).foldl appendStats t) := by
  intro ds
  induction ds with
  | nil => intro diffs t _; simp [evalLoop, successFragments]
  | cons d ds ih =>
    intro diffs t hlen
    cases diffs with
    | nil => simp at hlen
    | cons df diffs =>
      cases hs : solve d with
      | none => simp [evalLoop, successFragments, hs]
      | some s =>
        simp only [evalLoop, successFragments, hs, List.foldl_cons]
        exact ih diffs (appendStats t s) (by simpa using Nat.succ_le_succ_iff.mp hlen)

lemma foldl_appendStats (frs : List StatsFragment) :
    ∀ t : RunRecord,
      (frs.foldl appendStats t).solver = t.solver ∧
      (frs.foldl appendStats t).problem_size
        = t.problem_size ++ (frs.map StatsFragment.problem_size).flatten ∧
      (frs.foldl appendStats t).difficulty
        = t.difficulty ++ (frs.map StatsFragment.difficulty).flatten ∧
      (frs.foldl appendStats t).runtime
        = t.runtime ++ (frs.map StatsFragment.runtime).flatten ∧
      (frs.foldl appendStats t).success
        = t.success ++ (frs.map StatsFragment.success).flatten := by
  induction frs with
  | nil => intro t; simp
  | cons f frs ih =>
    intro t
    obtain ⟨h1, h2, h3, h4, h5⟩ := ih (appendStats t f)
    simp only [appendStats] at h1 h2 h3 h4 h5
    refine ⟨?_, ?_, ?_, ?_, ?_⟩ <;>
      simp [List.foldl_cons, appendStats, h1, h2, h3, h4, h5, List.append_assoc]

lemma successFragments_eq_of_stop {D : Type} (solve : D → Option StatsFragment) :
    ∀ (ds : List D) (k : Nat) (frs : List StatsFragment) (hk : k < ds.length),
      (ds.take k).map solve = frs.map some →
      solve (ds.get ⟨k, hk⟩) = none →
      successFragments solve ds = frs := by
  intro ds
  induction ds with
  | nil => intro k frs hk; exact absurd hk (by simp)
  | cons d ds ih =>
    intro k frs hk hpre hfail
    cases k with
    | zero =>
      have hfrs : frs = [] := by simpa using hpre.symm
      simp only [List.get] at hfail
      simp [successFragments, hfail, hfrs]
    | succ k =>
      cases frs with
      | nil => simp at hpre
      | cons f frs =>
        simp only [List.take_succ_cons, List.map_cons, List.cons.injEq] at hpre
        simp only [List.get] at hfail
        simp [successFragments, hpre.1,
          ih k frs (by simpa using Nat.succ_lt_succ_iff.mp hk) hpre.2 hfail]

lemma length_successFragments_le {D : Type} (solve : D → Option StatsFragment) :
    ∀ ds : List D, (successFragments solve ds).length ≤ ds.length := by
  intro ds
  induction ds with
  | nil => simp [successFragments]
  | cons d ds ih =>
    cases hs : solve d with
    | none => simp [successFragments, hs]
    | some s => simpa [successFragments, hs] using Nat.succ_le_succ ih

/-- C1: if the solve collaborator succeeds on datasets `0..k-1` (returning
fragments `frs`) and fails on dataset `k`, then `eval_solver` returns a record
whose four measurement sequences are exactly the concatenations of the
fragments of the successful prefix: nothing from the failing dataset, nothing
discarded. -/
theorem eval_solver_stops_at_failure {D : Type}
    (solve : D → Option StatsFragment) (solver : String)
    (datasets : List D) (difficulties : List Int)
    (k : Nat) (frs : List StatsFragment)
    (hlen : datasets.length = difficulties.length)
    (hk : k < datasets.length)
    (hpre : (datasets.take k).map solve = frs.map some)
    (hfail : solve (datasets.get ⟨k, hk⟩) = none) :
    ∃ out : EvalOutput,
      eval_solver solve solver datasets difficulties = Except.ok out ∧
      out.result.problem_size = (frs.map StatsFragment.problem_size).flatten ∧
      out.result.difficulty = (frs.map StatsFragment.difficulty).flatten ∧
      out.result.runtime = (frs.map StatsFragment.runtime).flatten ∧
      out.result.success = (frs.map StatsFragment.success).flatten := by
  have hfr : successFragments solve datasets = frs :=
    successFragments_eq_of_stop solve datasets k frs hk hpre hfail
  have hloop := evalLoop_eq_ok solve datasets difficulties (initStats solver) (le_of_eq hlen)
  rw [hfr] at hloop
  obtain ⟨h1, h2, h3, h4, h5⟩ := foldl_appendStats frs (initStats solver)
  refine ⟨⟨solver ++ statsFileSuffix, frs.foldl appendStats (initStats solver),
    frs.foldl appendStats (initStats solver)⟩, ?_, ?_, ?_, ?_, ?_⟩
  · simp only [eval_solver, hloop]
  · simpa [initStats] using h2
  · simpa [initStats] using h3
  · simpa [initStats] using h4
  · simpa [initStats] using h5

/-- C1 witness: three datasets, solve succeeds on the first two and fails on
the third. -/
theorem eval_solver_stops_at_failure_witness :
    ([0, 1, 2] : List Nat).length = ([1, 4, 8] : List Int).length ∧
    2 < ([0, 1, 2] : List Nat).length ∧
    (∃ out : EvalOutput,
      eval_solver
        (fun d : Nat => if d < 2 then some ⟨[(d : Int)], [(d : Int)], [(d : Rat)], [true]⟩ else none)
        solverA [0, 1, 2] [1, 4, 8] = Except.ok out ∧
      out.result.problem_size
        = ([⟨[0], [0], [0], [true]⟩, ⟨[1], [1], [1], [true]⟩].map
            StatsFragment.problem_size).flatten ∧
      out.result.difficulty
        = ([⟨[0], [0], [0], [true]⟩, ⟨[1], [1], [1], [true]⟩].map
            StatsFragment.difficulty).flatten ∧
      out.result.runtime
        = ([⟨[0], [0], [0], [true]⟩, ⟨[1], [1], [1], [true]⟩].map
            StatsFragment.runtime).flatten ∧
      out.result.success
        = ([⟨[0], [0], [0], [true]⟩, ⟨[1], [1], [1], [true]⟩].map
            StatsFragment.success).flatten) := by
  refine ⟨rfl, by decide, ?_⟩
  exact eval_solver_stops_at_failure
    (fun d : Nat => if d < 2 then some ⟨[(d : Int)], [(d : Int)], [(d : Rat)], [true]⟩ else none)
    solverA [0, 1, 2] [1, 4, 8] 2
    [⟨[0], [0], [0], [true]⟩, ⟨[1], [1], [1], [true]⟩]
    rfl (by decide) (by decide) (by decide)

lemma appendStats_eqLens {t : RunRecord} {s : StatsFragment}
    (ht : recEqLens t) (hs : fragEqLens s) : recEqLens (appendStats t s) := by
  obtain ⟨a1, a2, a3⟩ := ht
  obtain ⟨b1, b2, b3⟩ := hs
  simp [recEqLens, appendStats, a1, a2, a3, b1, b2, b3]

lemma evalLoop_preserves_eqLens {D : Type} (solve : D → Option StatsFragment)
    (hsolve : ∀ d s, solve d = some s → fragEqLens s) :
    ∀ (ds : List D) (diffs : List Int) (t : RunRecord), recEqLens t →
      ∀ r, evalLoop solve ds diffs t = Except.ok r → recEqLens r := by
  intro ds
  induction ds with
  | nil =>
    intro diffs t ht r hr
    simp only [evalLoop, Except.ok.injEq] at hr
    exact hr ▸ ht
  | cons d ds ih =>
    intro diffs t ht r hr
    cases diffs with
    | nil => simp [evalLoop] at hr
    | cons df diffs =>
      cases hs : solve d with
      | none =>
        simp only [evalLoop, hs, Except.ok.injEq] at hr
        exact hr ▸ ht
      | some s =>
        simp only [evalLoop, hs] at hr
        exact ih diffs (appendStats t s) (appendStats_eqLens ht (hsolve d s hs)) r hr

/-- C5: if every fragment a successful solve returns has its four lists of
equal length, then the four measurement sequences stay of equal length: the
sweep loop preserves the invariant from any accumulator satisfying it (so it
holds after every iteration), and the record `eval_solver` returns (and
writes) satisfies it. -/
theorem eval_solver_eq_lengths {D : Type}
    (solve : D → Option StatsFragment) (solver : String)
    (hsolve : ∀ d s, solve d = some s → fragEqLens s) :
    (∀ (ds : List D) (diffs : List Int) (t : RunRecord), recEqLens t →
      ∀ r, evalLoop solve ds diffs t = Except.ok r → recEqLens r) ∧
    (∀ (datasets : List D) (difficulties : List Int) (out : EvalOutput),
      eval_solver solve solver datasets difficulties = Except.ok out →
      recEqLens out.result ∧ recEqLens out.written) := by
  refine ⟨evalLoop_preserves_eqLens solve hsolve, ?_⟩
  intro datasets difficulties out hout
  have hinit : recEqLens (initStats solver) := by simp [recEqLens, initStats]
  cases hl : evalLoop solve datasets difficulties (initStats solver) with
  | error e => simp [eval_solver, hl] at hout
  | ok t =>
    simp only [eval_solver, hl, Except.ok.injEq] at hout
    have ht := evalLoop_preserves_eqLens solve hsolve datasets difficulties
      (initStats solver) hinit t hl
    subst hout
    exact ⟨ht, ht⟩

/-- C5 witness fragment and solve collaborator: every dataset yields one
fragment with equal-length lists. -/
def wFrag : StatsFragment := ⟨[5], [1], [2], [true]⟩

def wSolve : Unit → Option StatsFragment := fun _ => some wFrag

lemma wSolve_eqLens : ∀ (d : Unit) (s : StatsFragment), wSolve d = some s → fragEqLens s := by
  intro _d s h
  have hs : wFrag = s := by simpa [wSolve] using h
  subst hs
  decide

/-- C5 witness: the invariant theorem applied to the concrete collaborator
`wSolve`. -/
theorem eval_solver_eq_lengths_witness :
    (∀ (d : Unit) (s : StatsFragment), wSolve d = some s → fragEqLens s) ∧
    ((∀ (ds : List Unit) (diffs : List Int) (t : RunRecord), recEqLens t →
        ∀ r, evalLoop wSolve ds diffs t = Except.ok r → recEqLens r) ∧
      (∀ (datasets : List Unit) (difficulties : List Int) (out : EvalOutput),
        eval_solver wSolve solverA datasets difficulties = Except.ok out →
        recEqLens out.result ∧ recEqLens out.written)) :=
  ⟨wSolve_eqLens, eval_solver_eq_lengths wSolve solverA wSolve_eqLens⟩

/-- C4: with matching dataset/difficulty list lengths, `eval_solver` never
propagates a failure of the solve collaborator: it always returns
`Except.ok`, and the checkpoint it writes is named
`solver ++ statsFileSuffix` and contains exactly the record it returns —
whether the sweep completed in full or stopped early. -/
theorem eval_solver_total_and_checkpoints {D : Type}
    (solve : D → Option StatsFragment) (solver : String)
    (datasets : List D) (difficulties : List Int)
    (hlen : datasets.length = difficulties.length) :
    ∃ t : RunRecord,
      eval_solver solve solver datasets difficulties =
        Except.ok ⟨solver ++ statsFileSuffix, t, t⟩ := by
  refine ⟨(successFragments solve datasets).foldl appendStats (initStats solver), ?_⟩
  simp only [eval_solver,
    evalLoop_eq_ok solve datasets difficulties (initStats solver) (le_of_eq hlen)]

/-- C4 witness: a solve collaborator that fails on the second dataset; the
sweep still returns ok and checkpoints. -/
theorem eval_solver_total_and_checkpoints_witness :
    ([0, 1] : List Nat).length = ([1, 4] : List Int).length ∧
    (∃ t : RunRecord,
      eval_solver (fun d : Nat => if d = 0 then some wFrag else none)
        solverA [0, 1] [1, 4] = Except.ok ⟨solverA ++ statsFileSuffix, t, t⟩) :=
  ⟨rfl, eval_solver_total_and_checkpoints
    (fun d : Nat => if d = 0 then some wFrag else none) solverA [0, 1] [1, 4] rfl⟩

/-- C2 counterexample fragment: a single dataset whose solve fragment holds
two instances. -/
def twoInstanceFrag : StatsFragment := ⟨[10, 20], [1, 1], [1, 2], [true, true]⟩

/-- C2 is false as stated: with one dataset whose fragment holds two
instances, the returned sequences have length 2, while the number of
successfully processed datasets is 1 and the number of datasets passed in is
1, so the length neither equals the processed count nor is bounded by the
dataset count. -/
theorem eval_solver_length_counterexample :
    ∃ out : EvalOutput,
      eval_solver (fun _ : Unit => some twoInstanceFrag) solverA [()] [1] = Except.ok out ∧
      out.result.problem_size.length = 2 ∧
      (successFragments (fun _ : Unit => some twoInstanceFrag) [()]).length = 1 ∧
      ¬ out.result.problem_size.length = 1 ∧
      ¬ out.result.problem_size.length ≤ ([()] : List Unit).length := by
  refine ⟨_, rfl, ?_, ?_, ?_, ?_⟩ <;> decide

/-- C2 amended: the common length of the four sequences equals the total
number of instances (the sum of the fragment lengths) over the datasets
successfully processed before any failure; the number of processed datasets —
not the instance count — is bounded by the number of datasets passed in. -/
theorem eval_solver_length_eq_instances {D : Type}
    (solve : D → Option StatsFragment) (solver : String)
    (datasets : List D) (difficulties : List Int)
    (hlen : datasets.length = difficulties.length)
    (hsolve : ∀ d s, solve d = some s → fragEqLens s) :
    ∃ out : EvalOutput,
      eval_solver solve solver datasets difficulties = Except.ok out ∧
      recEqLens out.result ∧
      out.result.problem_size.length =
        ((successFragments solve datasets).map (fun s => s.problem_size.length)).sum ∧
      (successFragments solve datasets).length ≤ datasets.length := by
  have hloop := evalLoop_eq_ok solve datasets difficulties (initStats solver) (le_of_eq hlen)
  obtain ⟨h1, h2, h3, h4, h5⟩ :=
    foldl_appendStats (successFragments solve datasets) (initStats solver)
  refine ⟨⟨solver ++ statsFileSuffix,
    (successFragments solve datasets).foldl appendStats (initStats solver),
    (successFragments solve datasets).foldl appendStats (initStats solver)⟩, ?_, ?_, ?_, ?_⟩
  · simp only [eval_solver, hloop]
  · exact evalLoop_preserves_eqLens solve hsolve datasets difficulties (initStats solver)
      (by simp [recEqLens, initStats]) _ hloop
  · simp only [initStats] at h2 ⊢
    simp [h2, List.length_flatten, List.map_map, Function.comp_def]
  · exact length_successFragments_le solve datasets

/-- C2 amended witness: the two-instance fragment again; the record length is
the instance total 2. -/
theorem eval_solver_length_eq_instances_witness :
    ([()] : List Unit).length = ([1] : List Int).length ∧
    (∀ (_d : Unit) (s : StatsFragment), some twoInstanceFrag = some s → fragEqLens s) ∧
    (∃ out : EvalOutput,
      eval_solver (fun _ : Unit => some twoInstanceFrag) solverA [()] [1] = Except.ok out ∧
      recEqLens out.result ∧
      out.result.problem_size.length =
        ((successFragments (fun _ : Unit => some twoInstanceFrag) [()]).map
          (fun s => s.problem_size.length)).sum ∧
      (successFragments (fun _ : Unit => some twoInstanceFrag) [()]).length ≤
        ([()] : List Unit).length) := by
  refine ⟨rfl, ?_, ?_⟩
  · intro _d s h
    have hs : twoInstanceFrag = s := by simpa using h
    subst hs
    decide
  · exact eval_solver_length_eq_instances (fun _ : Unit => some twoInstanceFrag)
      solverA [()] [1] rfl (by intro d s h; injection h with h2; subst h2; decide)

/-- Round-half-to-even on an exact value: the semantics of `np.round` (the
rounding used by `log_ticks`, eval.py lines 13-14). -/
def npRound (q : Rat) : Int :=
  if q - ⌊q⌋ < 1/2 then ⌊q⌋
  else if 1/2 < q - ⌊q⌋ then ⌊q⌋ + 1
  else if 2 ∣ ⌊q⌋ then ⌊q⌋ else ⌊q⌋ + 1

def tickLeft : String := "$10^\x7b"

def tickRight : String := "\x7d$"

/-- Model of `log_ticks(x)` (eval.py lines 12-17).  `np.min`/`np.max` raise a
ValueError on an empty array, modelled by `none`; Python `range(x_min, x_max)`
excludes `x_max`; each label renders ten to the power of the tick value in
TeX notation. -/
def log_ticks (x : List Rat) : Option (List Int × List String) :=
  match x.min?, x.max? with
  | some mn, some mx =>
    let x_min : Int := npRound mn - 1
    let x_max : Int := npRound mx + 1
    let ticks := (List.range (x_max - x_min).toNat).map (fun i : Nat => x_min + (i : Int))
    some (ticks, ticks.map (fun i => tickLeft ++ toString i ++ tickRight))
  | _, _ => none

lemma npRound_le (q : Rat) : (npRound q : Rat) ≤ q + 1/2 := by
  have hf1 : ((⌊q⌋ : Int) : Rat) ≤ q := Int.floor_le q
  have hf2 : q < (⌊q⌋ : Int) + 1 := Int.lt_floor_add_one q
  unfold npRound
  split
  · linarith
  · split
    · push_cast; linarith
    · split <;> push_cast <;> linarith

lemma le_npRound (q : Rat) : q - 1/2 ≤ (npRound q : Rat) := by
  have hf1 : ((⌊q⌋ : Int) : Rat) ≤ q := Int.floor_le q
  have hf2 : q < (⌊q⌋ : Int) + 1 := Int.lt_floor_add_one q
  unfold npRound
  split
  · linarith
  · split
    · push_cast; linarith
    · split <;> push_cast <;> linarith

lemma list_min?_eq_some_iff {α : Type} [LinearOrder α] {xs : List α} {a : α} :
    xs.min? = some a ↔ a ∈ xs ∧ ∀ b ∈ xs, a ≤ b := by
  have inst : Std.Antisymm (α := α) (· ≤ ·) := ⟨fun h h2 => le_antisymm h h2⟩
  exact List.min?_eq_some_iff (fun _ => le_refl _) min_choice (fun _ _ _ => le_min_iff)

lemma list_max?_eq_some_iff {α : Type} [LinearOrder α] {xs : List α} {a : α} :
    xs.max? = some a ↔ a ∈ xs ∧ ∀ b ∈ xs, b ≤ a := by
  have inst : Std.Antisymm (α := α) (· ≤ ·) := ⟨fun h h2 => le_antisymm h h2⟩
  exact List.max?_eq_some_iff (fun _ => le_refl _) max_choice (fun _ _ _ => max_le_iff)

lemma ticks_min? (a : Int) (n : Nat) (hn : 0 < n) :
    ((List.range n).map (fun i : Nat => a + (i : Int))).min? = some a := by
  rw [list_min?_eq_some_iff]
  refine ⟨?_, ?_⟩
  · rw [List.mem_map]
    exact ⟨0, List.mem_range.mpr hn, by simp⟩
  · intro b hb
    obtain ⟨i, hi, rfl⟩ := List.mem_map.mp hb
    omega

lemma ticks_max? (a : Int) (n : Nat) (hn : 0 < n) :
    ((List.range n).map (fun i : Nat => a + (i : Int))).max? = some (a + (n : Int) - 1) := by
  rw [list_max?_eq_some_iff]
  refine ⟨?_, ?_⟩
  · rw [List.mem_map]
    refine ⟨n - 1, List.mem_range.mpr (by omega), by omega⟩
  · intro b hb
    obtain ⟨i, hi, rfl⟩ := List.mem_map.mp hb
    have := List.mem_range.mp hi
    omega

lemma log_ticks_singleton (q : Rat) :
    log_ticks [q] =
      some ((List.range (npRound q + 1 - (npRound q - 1)).toNat).map
              (fun i : Nat => npRound q - 1 + (i : Int)),
            ((List.range (npRound q + 1 - (npRound q - 1)).toNat).map
              (fun i : Nat => npRound q - 1 + (i : Int))).map
              (fun i => tickLeft ++ toString i ++ tickRight)) := rfl

lemma npRound_three_tenths : npRound ((3 : Rat)/10) = 0 := by
  have hfl : ⌊(3 : Rat)/10⌋ = 0 := by norm_num
  simp only [npRound, hfl]
  norm_num

/-- C3 is false as stated: at `x = [3/10]`, `log_ticks` produces ticks
`[-1, 0]` (Python `range` excludes the upper endpoint `1`), whose maximum `0`
is strictly below the data maximum `3/10`: the tick range does not cover the
data range from above. -/
theorem log_ticks_not_covering :
    ∃ pr : List Int × List String,
      log_ticks [(3 : Rat)/10] = some pr ∧
      pr.1 = [-1, 0] ∧
      pr.1.max? = some 0 ∧
      ∃ mx, ([(3 : Rat)/10]).max? = some mx ∧ ((0 : Int) : Rat) < mx := by
  rw [log_ticks_singleton, npRound_three_tenths]
  refine ⟨_, rfl, by decide, by decide, ⟨(3 : Rat)/10, rfl, by norm_num⟩⟩

/-- C3 amended: for non-empty `x` the ticks of `log_ticks x` cover the data
range from below (`min ticks ≤ min x`), but from above only up to the
half-unit that half-to-even rounding may cut: `max x - 1/2 ≤ max ticks` (the upper
end of Python `range` is exclusive, so the top tick is `round(max x)`, not
`round(max x) + 1`). -/
theorem log_ticks_covering (x : List Rat) (hx : x ≠ []) :
    ∃ ticks labels mn mx lo hi,
      log_ticks x = some (ticks, labels) ∧
      x.min? = some mn ∧ x.max? = some mx ∧
      ticks.min? = some lo ∧ ticks.max? = some hi ∧
      (lo : Rat) ≤ mn ∧ mx - 1/2 ≤ (hi : Rat) := by
  cases hmn : x.min? with
  | none => exact absurd (List.min?_eq_none_iff.mp hmn) hx
  | some mn =>
  cases hmx : x.max? with
  | none => exact absurd (List.max?_eq_none_iff.mp hmx) hx
  | some mx =>
  have hmn2 := list_min?_eq_some_iff.mp hmn
  have hmx2 := list_max?_eq_some_iff.mp hmx
  have hmnmx : mn ≤ mx := hmx2.2 mn hmn2.1
  have hb1 : mx - 1/2 ≤ (npRound mx : Rat) := le_npRound mx
  have hb2 : (npRound mn : Rat) ≤ mn + 1/2 := npRound_le mn
  have hdiff : npRound mn - npRound mx ≤ 1 := by
    have : (npRound mn : Rat) - (npRound mx : Rat) ≤ 1 := by linarith
    exact_mod_cast this
  have hpos : (0 : Int) < (npRound mx + 1) - (npRound mn - 1) := by omega
  have hn : 0 < ((npRound mx + 1) - (npRound mn - 1)).toNat := by omega
  have hcast : ((((npRound mx + 1) - (npRound mn - 1)).toNat : Int)) =
      (npRound mx + 1) - (npRound mn - 1) := Int.toNat_of_nonneg (by omega)
  refine ⟨(List.range ((npRound mx + 1) - (npRound mn - 1)).toNat).map
      (fun i : Nat => (npRound mn - 1) + (i : Int)),
    ((List.range ((npRound mx + 1) - (npRound mn - 1)).toNat).map
      (fun i : Nat => (npRound mn - 1) + (i : Int))).map
      (fun i => tickLeft ++ toString i ++ tickRight),
    mn, mx, npRound mn - 1, npRound mx, ?_, rfl, rfl, ?_, ?_, ?_, ?_⟩
  · simp only [log_ticks, hmn, hmx]
  · exact ticks_min? _ _ hn
  · have h := ticks_max? (npRound mn - 1) (((npRound mx + 1) - (npRound mn - 1)).toNat) hn
    rw [hcast] at h
    have heq : npRound mn - 1 + ((npRound mx + 1) - (npRound mn - 1)) - 1 = npRound mx := by
      omega
    rw [heq] at h
    exact h
  · push_cast
    linarith
  · exact hb1

/-- C3 amended witness: at `x = [0]` the ticks are `[-1, 0]` with
`-1 ≤ 0` and `0 - 1/2 ≤ 0`. -/
theorem log_ticks_covering_witness :
    ([(0 : Rat)] ≠ []) ∧
    (∃ ticks labels mn mx lo hi,
      log_ticks [(0 : Rat)] = some (ticks, labels) ∧
      ([(0 : Rat)]).min? = some mn ∧ ([(0 : Rat)]).max? = some mx ∧
      ticks.min? = some lo ∧ ticks.max? = some hi ∧
      (lo : Rat) ≤ mn ∧ mx - 1/2 ≤ (hi : Rat)) :=
  ⟨by simp, log_ticks_covering [(0 : Rat)] (by simp)⟩

/-- Degree-1 ordinary least-squares fit: the mathematical content of
`np.polyfit(x, y, 1)` as invoked by `plot_stats` (eval.py line 38), solved by
the normal equations (minimising squared vertical residuals of
`y = m*x + b`). -/
def polyfit1 (x y : List Rat) : Rat × Rat :=
  let n : Rat := x.length
  let sx := x.sum
  let sy := y.sum
  let sxx := (x.map (fun v => v * v)).sum
  let sxy := (List.zipWith (fun a b => a * b) x y).sum
  let d := n * sxx - sx * sx
  let m := (n * sxy - sx * sy) / d
  let b := (sy - m * sx) / n
  (m, b)

lemma sum_map_affine (p q : Rat) (x : List Rat) :
    (x.map (fun v => p * v + q)).sum = p * x.sum + q * x.length := by
  induction x with
  | nil => simp
  | cons a x ih =>
    simp only [List.map_cons, List.sum_cons, ih, List.length_cons]
    push_cast
    ring

lemma zipWith_mul_self_map (p q : Rat) (x : List Rat) :
    List.zipWith (fun a b => a * b) x (x.map (fun v => p * v + q)) =
      x.map (fun v => v * (p * v + q)) := by
  induction x with
  | nil => rfl
  | cons a x ih => simp [ih]

lemma sum_map_mul_affine (p q : Rat) (x : List Rat) :
    (x.map (fun v => v * (p * v + q))).sum
      = p * (x.map (fun v => v * v)).sum + q * x.sum := by
  induction x with
  | nil => simp
  | cons a x ih =>
    simp only [List.map_cons, List.sum_cons, ih]
    ring

lemma sum_map_sub_sq (c : Rat) (x : List Rat) :
    (x.map (fun v => (v - c) * (v - c))).sum
      = (x.map (fun v => v * v)).sum - 2 * c * x.sum + x.length * (c * c) := by
  induction x with
  | nil => simp
  | cons a x ih =>
    simp only [List.map_cons, List.sum_cons, ih, List.length_cons]
    push_cast
    ring

/-- With two distinct abscissae the least-squares denominator
`n * Σx² - (Σx)²` is strictly positive. -/
lemma polyfit_denom_pos (x : List Rat) (a b : Rat)
    (ha : a ∈ x) (hb : b ∈ x) (hab : a ≠ b) :
    0 < (x.length : Rat) * (x.map (fun v => v * v)).sum - x.sum * x.sum := by
  have hx : x ≠ [] := by rintro rfl; simp at ha
  have hnpos : 0 < (x.length : Rat) := by
    have : 0 < x.length := List.length_pos.mpr hx
    exact_mod_cast this
  set c : Rat := x.sum / x.length with hc
  have habc : a ≠ c ∨ b ≠ c := by
    by_contra h
    push_neg at h
    exact hab (h.1.trans h.2.symm)
  have hnonneg : ∀ v ∈ x.map (fun v => (v - c) * (v - c)), 0 ≤ v := by
    intro v hv
    obtain ⟨w, _, rfl⟩ := List.mem_map.mp hv
    exact mul_self_nonneg _
  have hkey : 0 < (x.map (fun v => (v - c) * (v - c))).sum := by
    obtain hd | hd := habc
    · have hmem : (a - c) * (a - c) ∈ x.map (fun v => (v - c) * (v - c)) :=
        List.mem_map.mpr ⟨a, ha, rfl⟩
      have hpos : 0 < (a - c) * (a - c) :=
        mul_self_pos.mpr (sub_ne_zero.mpr hd)
      exact lt_of_lt_of_le hpos (List.single_le_sum hnonneg _ hmem)
    · have hmem : (b - c) * (b - c) ∈ x.map (fun v => (v - c) * (v - c)) :=
        List.mem_map.mpr ⟨b, hb, rfl⟩
      have hpos : 0 < (b - c) * (b - c) :=
        mul_self_pos.mpr (sub_ne_zero.mpr hd)
      exact lt_of_lt_of_le hpos (List.single_le_sum hnonneg _ hmem)
  have hexp : (x.length : Rat) * (x.map (fun v => (v - c) * (v - c))).sum
      = (x.length : Rat) * (x.map (fun v => v * v)).sum - x.sum * x.sum := by
    rw [sum_map_sub_sq, hc]
    field_simp
    ring
  calc (0 : Rat) < (x.length : Rat) * (x.map (fun v => (v - c) * (v - c))).sum :=
        mul_pos hnpos hkey
    _ = _ := hexp

/-- C8: if the log-log points lie exactly on the line `y = p*x + q` — the
log10 image of a power law `runtime = c * size^p` with `q = log10 c` — and
the abscissae take at least two distinct values, then the degree-1
least-squares fit computed in `plot_stats` recovers slope `p` and intercept
`q` exactly (over exact arithmetic). -/
theorem polyfit1_recovers_power_law (p q : Rat) (x : List Rat)
    (h2 : ∃ a ∈ x, ∃ b ∈ x, a ≠ b) :
    polyfit1 x (x.map (fun v => p * v + q)) = (p, q) := by
  obtain ⟨a, ha, b, hb, hab⟩ := h2
  have hd := polyfit_denom_pos x a b ha hb hab
  have hd0 : (x.length : Rat) * (x.map (fun v => v * v)).sum - x.sum * x.sum ≠ 0 :=
    ne_of_gt hd
  have hx : x ≠ [] := by rintro rfl; simp at ha
  have hn0 : (x.length : Rat) ≠ 0 := by
    have : 0 < x.length := List.length_pos.mpr hx
    positivity
  have hm : ((x.length : Rat) * (p * (x.map (fun v => v * v)).sum + q * x.sum)
        - x.sum * (p * x.sum + q * x.length))
        / ((x.length : Rat) * (x.map (fun v => v * v)).sum - x.sum * x.sum) = p := by
    have hnum : (x.length : Rat) * (p * (x.map (fun v => v * v)).sum + q * x.sum)
        - x.sum * (p * x.sum + q * x.length)
        = p * ((x.length : Rat) * (x.map (fun v => v * v)).sum - x.sum * x.sum) := by
      ring
    rw [hnum, mul_div_assoc, div_self hd0, mul_one]
  have hbq : ((p * x.sum + q * x.length) - p * x.sum) / (x.length : Rat) = q := by
    have hnum : (p * x.sum + q * x.length) - p * x.sum = q * (x.length : Rat) := by ring
    rw [hnum, mul_div_assoc, div_self hn0, mul_one]
  simp only [polyfit1, zipWith_mul_self_map, sum_map_affine, sum_map_mul_affine]
  rw [hm, hbq]

/-- C8 witness: the exact line `y = 2*x + 3` over abscissae `[0, 1]`. -/
theorem polyfit1_recovers_power_law_witness :
    (∃ a ∈ ([0, 1] : List Rat), ∃ b ∈ ([0, 1] : List Rat), a ≠ b) ∧
    polyfit1 [0, 1] (([0, 1] : List Rat).map (fun v => 2 * v + 3)) = (2, 3) :=
  ⟨⟨0, by simp, 1, by simp, by norm_num⟩,
    polyfit1_recovers_power_law 2 3 [0, 1] ⟨0, by simp, 1, by simp, by norm_num⟩⟩

/-- Per-solver entry of the stats mapping consumed by `plot_stats`
(the problem_size and runtime arrays of one solver). -/
structure SolverData where
  problem_size : List Rat
  runtime : List Rat
deriving DecidableEq

/-- One plotted solver: its log-log points, its colour and its fitted line
(eval.py lines 38-44).  The external gnuplot colour map is injective
on `[0,1]`, so a colour is modelled by its sample position in `[0,1]`. -/
structure PlottedSolver where
  solver : String
  x : List Rat
  y : List Rat
  color : Rat
  slope : Rat
  intercept : Rat
deriving DecidableEq

/-- Model of `np.linspace(0, 1, n)` (eval.py line 28). -/
def linspace01 : Nat → List Rat
  | 0 => []
  | 1 => [0]
  | n + 2 => (List.range (n + 2)).map (fun i : Nat => (i : Rat) / ((n : Rat) + 1))

/-- The rendered comparison chart: plotted solvers (points, colour, fit),
relabelled axis ticks, and the fixed output path (eval.py lines 25-63). -/
structure PlotOutput where
  plotted : List PlottedSolver
  xticks : List Int
  xlabels : List String
  yticks : List Int
  ylabels : List String
  saved_to : String
deriving DecidableEq

def solveTimesFile : String := "images/solve_times.pdf"

/-- Loop of `plot_stats` (lines 31-47): per solver, log-transform both axes,
skip with a printed diagnostic when either array is empty, otherwise fit and
plot in colour `colors[i]`, where `i` counts the solvers plotted so far (the
Python indexing `colors[i]` never goes out of range because `i` is at most
the number of solvers already consumed, so `getD` coincides with it);
`all_x`/`all_y` accumulate the plotted points by concatenation.  Returns
(skipped names, plotted solvers, all_x, all_y). -/
def plotLoop (lg : Rat → Rat) (colors : List Rat) :
    List (String × SolverData) → Nat →
      List String × List PlottedSolver × List Rat × List Rat
  | [], _ => ([], [], [], [])
  | (solver, sd) :: rest, i =>
    let x := sd.problem_size.map lg
    let y := sd.runtime.map lg
    if x.length = 0 ∨ y.length = 0 then
      let r := plotLoop lg colors rest i
      (solver :: r.1, r.2.1, r.2.2.1, r.2.2.2)
    else
      let fit := polyfit1 x y
      let r := plotLoop lg colors rest (i + 1)
      (r.1, ⟨solver, x, y, colors.getD i 0, fit.1, fit.2⟩ :: r.2.1,
        x ++ r.2.2.1, y ++ r.2.2.2)

/-- Model of `plot_stats(stats)` (lines 20-63) on an in-memory stats mapping,
parametric in the external `log10` transform `lg`.  Returns the printed skip
diagnostics together with `some` chart, or `none` when `log_ticks` raises
(`np.min` of the empty `all_x`/`all_y` after every solver was skipped). -/
def plot_stats (lg : Rat → Rat) (stats : List (String × SolverData)) :
    List String × Option PlotOutput :=
  let colors := linspace01 stats.length
  let r := plotLoop lg colors stats 0
  match log_ticks r.2.2.1, log_ticks r.2.2.2 with
  | some (xt, xl), some (yt, yl) =>
    (r.1, some ⟨r.2.1, xt, xl, yt, yl, solveTimesFile⟩)
  | _, _ => (r.1, none)

/-- A solver entry is skipped exactly when one of its arrays is empty. -/
def emptyData (p : String × SolverData) : Bool :=
  p.2.problem_size.isEmpty || p.2.runtime.isEmpty

lemma plotLoop_skipped (lg : Rat → Rat) (colors : List Rat) :
    ∀ (stats : List (String × SolverData)) (i : Nat),
      (plotLoop lg colors stats i).1 = (stats.filter emptyData).map Prod.fst ∧
      (plotLoop lg colors stats i).2.1.map PlottedSolver.solver =
        (stats.filter (fun p => ! emptyData p)).map Prod.fst := by
  intro stats
  induction stats with
  | nil => intro i; simp [plotLoop]
  | cons p rest ih =>
    intro i
    obtain ⟨solver, sd⟩ := p
    by_cases h : (sd.problem_size.map lg).length = 0 ∨ (sd.runtime.map lg).length = 0
    · have he : emptyData (solver, sd) = true := by
        simpa [emptyData, List.isEmpty_iff, List.length_eq_zero] using h
      simp only [plotLoop]
      rw [if_pos h]
      simp [he, ih i]
    · have he : emptyData (solver, sd) = false := by
        simp only [List.length_map] at h
        push_neg at h
        simp [emptyData, List.isEmpty_iff, List.length_eq_zero,
          h.1, h.2, ← List.length_eq_zero]
      simp only [plotLoop]
      rw [if_neg h]
      simp [he, ih (i + 1)]

lemma plotLoop_allx_ne (lg : Rat → Rat) (colors : List Rat) :
    ∀ (stats : List (String × SolverData)) (i : Nat),
      (∃ p ∈ stats, p.2.problem_size ≠ [] ∧ p.2.runtime ≠ []) →
      (plotLoop lg colors stats i).2.2.1 ≠ [] ∧
      (plotLoop lg colors stats i).2.2.2 ≠ [] := by
  intro stats
  induction stats with
  | nil => intro i h; simp at h
  | cons p rest ih =>
    intro i h
    obtain ⟨solver, sd⟩ := p
    by_cases hc : (sd.problem_size.map lg).length = 0 ∨ (sd.runtime.map lg).length = 0
    · have hrest : ∃ p ∈ rest, p.2.problem_size ≠ [] ∧ p.2.runtime ≠ [] := by
        obtain ⟨q, hq, hq2⟩ := h
        rcases List.mem_cons.mp hq with rfl | hq3
        · exfalso
          simp only [List.length_map, List.length_eq_zero] at hc
          rcases hc with hc | hc
          · exact hq2.1 hc
          · exact hq2.2 hc
        · exact ⟨q, hq3, hq2⟩
      have hr := ih i hrest
      simp only [plotLoop]
      rw [if_pos hc]
      simpa using hr
    · push_neg at hc
      constructor
      · simp only [plotLoop]
        rw [if_neg (by push_neg; exact hc)]
        simp only [ne_eq, List.append_eq_nil]
        rintro ⟨h1, -⟩
        exact hc.1 (by simp [h1])
      · simp only [plotLoop]
        rw [if_neg (by push_neg; exact hc)]
        simp only [ne_eq, List.append_eq_nil]
        rintro ⟨h1, -⟩
        exact hc.2 (by simp [h1])

/-- C6: if at least one solver has non-empty size and runtime data, then
`plot_stats` prints a skip diagnostic exactly for the solvers with an empty
array, renders the chart without failing, and the plotted solvers are exactly
the remaining ones in iteration order. -/
theorem plot_stats_skips_empty_solvers (lg : Rat → Rat)
    (stats : List (String × SolverData))
    (h : ∃ p ∈ stats, p.2.problem_size ≠ [] ∧ p.2.runtime ≠ []) :
    (plot_stats lg stats).1 = (stats.filter emptyData).map Prod.fst ∧
    ∃ out : PlotOutput, (plot_stats lg stats).2 = some out ∧
      out.plotted.map PlottedSolver.solver =
        (stats.filter (fun p => ! emptyData p)).map Prod.fst := by
  obtain ⟨hx, hy⟩ := plotLoop_allx_ne lg (linspace01 stats.length) stats 0 h
  obtain ⟨hsk, hpl⟩ := plotLoop_skipped lg (linspace01 stats.length) stats 0
  cases hlx : log_ticks (plotLoop lg (linspace01 stats.length) stats 0).2.2.1 with
  | none =>
    exfalso
    rcases hmn : (plotLoop lg (linspace01 stats.length) stats 0).2.2.1.min? with - | mn
    · exact hx (List.min?_eq_none_iff.mp hmn)
    · rcases hmx : (plotLoop lg (linspace01 stats.length) stats 0).2.2.1.max? with - | mx
      · exact hx (List.max?_eq_none_iff.mp hmx)
      · rw [log_ticks, hmn, hmx] at hlx
        simp at hlx
  | some prx =>
  cases hly : log_ticks (plotLoop lg (linspace01 stats.length) stats 0).2.2.2 with
  | none =>
    exfalso
    rcases hmn : (plotLoop lg (linspace01 stats.length) stats 0).2.2.2.min? with - | mn
    · exact hy (List.min?_eq_none_iff.mp hmn)
    · rcases hmx : (plotLoop lg (linspace01 stats.length) stats 0).2.2.2.max? with - | mx
      · exact hy (List.max?_eq_none_iff.mp hmx)
      · rw [log_ticks, hmn, hmx] at hly
        simp at hly
  | some pry =>
    obtain ⟨tx, lx⟩ := prx
    obtain ⟨ty, ly⟩ := pry
    refine ⟨?_, ⟨⟨(plotLoop lg (linspace01 stats.length) stats 0).2.1,
      tx, lx, ty, ly, solveTimesFile⟩, ?_, ?_⟩⟩
    · simp only [plot_stats, hlx, hly]
      exact hsk
    · simp only [plot_stats, hlx, hly]
    · exact hpl

/-- C6 witness data: one empty solver next to one with data. -/
def nameA : String := "a"

def nameB : String := "b"

def nameC : String := "c"

def cStats : List (String × SolverData) :=
  [(nameA, ⟨[], []⟩), (nameB, ⟨[1], [1]⟩), (nameC, ⟨[10], [2]⟩)]

/-- C6 witness: on `cStats`, solver `a` is skipped and `b`, `c` are
plotted. -/
theorem plot_stats_skips_empty_solvers_witness :
    (∃ p ∈ cStats, p.2.problem_size ≠ [] ∧ p.2.runtime ≠ []) ∧
    ((plot_stats id cStats).1 = (cStats.filter emptyData).map Prod.fst ∧
      ∃ out : PlotOutput, (plot_stats id cStats).2 = some out ∧
        out.plotted.map PlottedSolver.solver =
          (cStats.filter (fun p => ! emptyData p)).map Prod.fst) :=
  ⟨⟨(nameB, ⟨[1], [1]⟩), by simp [cStats], by simp, by simp⟩,
    plot_stats_skips_empty_solvers id cStats
      ⟨(nameB, ⟨[1], [1]⟩), by simp [cStats], by simp, by simp⟩⟩

/-- C10: if every solver in a non-empty stats mapping has empty size and
runtime arrays, every solver is skipped (one diagnostic each) and the
subsequent `log_ticks` call hits `np.min` of an empty array, so `plot_stats`
raises instead of rendering: the guard protects individual solvers, not the
all-empty collection. -/
theorem plot_stats_all_empty_raises (lg : Rat → Rat)
    (stats : List (String × SolverData))
    (_hne : stats ≠ [])
    (h : ∀ p ∈ stats, p.2.problem_size = [] ∧ p.2.runtime = []) :
    plot_stats lg stats = (stats.map Prod.fst, none) := by
  have hloop : ∀ (ss : List (String × SolverData)) (i : Nat),
      (∀ p ∈ ss, p.2.problem_size = [] ∧ p.2.runtime = []) →
      plotLoop lg (linspace01 stats.length) ss i = (ss.map Prod.fst, [], [], []) := by
    intro ss
    induction ss with
    | nil => intro i _; simp [plotLoop]
    | cons p rest ih =>
      intro i hall
      obtain ⟨solver, sd⟩ := p
      have hp := hall (solver, sd) (List.mem_cons_self _ _)
      have hp1 : sd.problem_size = [] := hp.1
      have hcond : (sd.problem_size.map lg).length = 0 ∨ (sd.runtime.map lg).length = 0 := by
        left
        simp [hp1]
      simp only [plotLoop]
      rw [if_pos hcond]
      simp [ih i (fun q hq => hall q (List.mem_cons_of_mem _ hq))]
  have hl := hloop stats 0 h
  simp only [plot_stats, hl, log_ticks, List.min?, List.max?]

/-- C10 witness: two all-empty solvers. -/
theorem plot_stats_all_empty_raises_witness :
    ([(nameA, (⟨[], []⟩ : SolverData)), (nameB, ⟨[], []⟩)] ≠ []) ∧
    (∀ p ∈ [(nameA, (⟨[], []⟩ : SolverData)), (nameB, ⟨[], []⟩)],
      p.2.problem_size = [] ∧ p.2.runtime = []) ∧
    plot_stats id [(nameA, (⟨[], []⟩ : SolverData)), (nameB, ⟨[], []⟩)] =
      ([nameA, nameB], none) := by
  refine ⟨by simp, by simp, ?_⟩
  have := plot_stats_all_empty_raises id
    [(nameA, (⟨[], []⟩ : SolverData)), (nameB, ⟨[], []⟩)] (by simp) (by simp)
  simpa using this

lemma length_linspace01 (n : Nat) : (linspace01 n).length = n := by
  match n with
  | 0 => rfl
  | 1 => rfl
  | n + 2 => simp [linspace01]

lemma log_ticks_isSome_of_ne_nil (x : List Rat) (hx : x ≠ []) :
    ∃ pr, log_ticks x = some pr := by
  cases hmn : x.min? with
  | none => exact absurd (List.min?_eq_none_iff.mp hmn) hx
  | some mn =>
    cases hmx : x.max? with
    | none => exact absurd (List.max?_eq_none_iff.mp hmx) hx
    | some mx =>
      refine ⟨((List.range (npRound mx + 1 - (npRound mn - 1)).toNat).map
          (fun i : Nat => npRound mn - 1 + (i : Int)),
        ((List.range (npRound mx + 1 - (npRound mn - 1)).toNat).map
          (fun i : Nat => npRound mn - 1 + (i : Int))).map
          (fun i => tickLeft ++ toString i ++ tickRight)), ?_⟩
      simp only [log_ticks, hmn, hmx]

lemma plot_stats_renders (lg : Rat → Rat) (stats : List (String × SolverData))
    (h : ∃ p ∈ stats, p.2.problem_size ≠ [] ∧ p.2.runtime ≠ []) :
    ∃ out : PlotOutput, (plot_stats lg stats).2 = some out ∧
      (plot_stats lg stats).1 = (plotLoop lg (linspace01 stats.length) stats 0).1 ∧
      out.plotted = (plotLoop lg (linspace01 stats.length) stats 0).2.1 := by
  obtain ⟨hx, hy⟩ := plotLoop_allx_ne lg (linspace01 stats.length) stats 0 h
  obtain ⟨⟨tx, lxs⟩, hlx⟩ := log_ticks_isSome_of_ne_nil _ hx
  obtain ⟨⟨ty, lys⟩, hly⟩ := log_ticks_isSome_of_ne_nil _ hy
  refine ⟨⟨(plotLoop lg (linspace01 stats.length) stats 0).2.1,
    tx, lxs, ty, lys, solveTimesFile⟩, ?_, ?_, rfl⟩
  · simp only [plot_stats, hlx, hly]
  · simp only [plot_stats, hlx, hly]

lemma plot_stats_plotted_eq (lg : Rat → Rat) (stats : List (String × SolverData))
    (out : PlotOutput) (hout : (plot_stats lg stats).2 = some out) :
    out.plotted = (plotLoop lg (linspace01 stats.length) stats 0).2.1 := by
  simp only [plot_stats] at hout
  cases hlx : log_ticks (plotLoop lg (linspace01 stats.length) stats 0).2.2.1 with
  | none =>
    rw [hlx] at hout
    cases hly : log_ticks (plotLoop lg (linspace01 stats.length) stats 0).2.2.2 with
    | none => rw [hly] at hout; simp at hout
    | some pry => obtain ⟨ty, lys⟩ := pry; rw [hly] at hout; simp at hout
  | some prx =>
    obtain ⟨tx, lxs⟩ := prx
    rw [hlx] at hout
    cases hly : log_ticks (plotLoop lg (linspace01 stats.length) stats 0).2.2.2 with
    | none => rw [hly] at hout; simp at hout
    | some pry =>
      obtain ⟨ty, lys⟩ := pry
      rw [hly] at hout
      obtain rfl := (Option.some.inj hout).symm
      rfl

lemma plotLoop_colors (lg : Rat → Rat) (colors : List Rat) :
    ∀ (stats : List (String × SolverData)) (i : Nat),
      i + stats.length ≤ colors.length →
      (plotLoop lg colors stats i).2.1.map PlottedSolver.color =
        (colors.drop i).take (plotLoop lg colors stats i).2.1.length := by
  intro stats
  induction stats with
  | nil => intro i _; simp [plotLoop]
  | cons p rest ih =>
    intro i hle
    obtain ⟨solver, sd⟩ := p
    by_cases h : (sd.problem_size.map lg).length = 0 ∨ (sd.runtime.map lg).length = 0
    · simp only [plotLoop]
      rw [if_pos h]
      exact ih i (by simp only [List.length_cons] at hle; omega)
    · have hi : i < colors.length := by simp only [List.length_cons] at hle; omega
      have hrec := ih (i + 1) (by simp only [List.length_cons] at hle ⊢; omega)
      simp only [plotLoop]
      rw [if_neg h]
      simp only [List.map_cons, List.length_cons]
      rw [hrec, List.drop_eq_getElem_cons hi, List.take_succ_cons]
      congr 1
      rw [List.getD_eq_getElem?_getD, List.getElem?_eq_getElem hi]
      rfl

/-- C9 amended: the colours are the `cmap` samples at `np.linspace(0, 1, n)`
where `n` is the TOTAL number of solvers in the stats mapping — including the
solvers skipped for empty data — and the plotted solvers receive the first
`k` sample positions (`k` = number plotted) in solver iteration order. -/
theorem plot_stats_colors_sample_total (lg : Rat → Rat)
    (stats : List (String × SolverData)) (out : PlotOutput)
    (hout : (plot_stats lg stats).2 = some out) :
    out.plotted.map PlottedSolver.color =
      (linspace01 stats.length).take out.plotted.length := by
  rw [plot_stats_plotted_eq lg stats out hout]
  have h := plotLoop_colors lg (linspace01 stats.length) stats 0
    (by rw [length_linspace01]; omega)
  simpa using h

/-- C9 amended witness: the colours of the two plotted solvers of `cStats`
are the first two of the three samples. -/
theorem plot_stats_colors_sample_total_witness :
    ∃ out : PlotOutput, (plot_stats id cStats).2 = some out ∧
      out.plotted.map PlottedSolver.color =
        (linspace01 cStats.length).take out.plotted.length := by
  obtain ⟨out, h1, h2, h3⟩ := plot_stats_renders id cStats
    ⟨(nameB, ⟨[1], [1]⟩), by simp [cStats], by simp, by simp⟩
  exact ⟨out, h1, plot_stats_colors_sample_total id cStats out h1⟩

/-- C9 is false as stated: on `cStats` (three solvers, one of which is
skipped for empty data) the two plotted solvers get colour positions
`[0, 1/2]` — linspace samples over all three solvers — whereas sampling over
the two solvers that have data would give positions `[0, 1]`. -/
theorem plot_stats_colors_counterexample :
    ∃ out : PlotOutput, (plot_stats id cStats).2 = some out ∧
      out.plotted.length = 2 ∧
      (cStats.filter (fun p => ! emptyData p)).length = 2 ∧
      out.plotted.map PlottedSolver.color = [0, 1/2] ∧
      linspace01 (cStats.filter (fun p => ! emptyData p)).length = [0, 1] ∧
      out.plotted.map PlottedSolver.color ≠
        linspace01 (cStats.filter (fun p => ! emptyData p)).length := by
  obtain ⟨out, h1, h2, h3⟩ := plot_stats_renders id cStats
    ⟨(nameB, ⟨[1], [1]⟩), by simp [cStats], by simp, by simp⟩
  have hflt : (cStats.filter (fun p => ! emptyData p)).length = 2 := by
    simp [cStats, emptyData]
  have hcol : out.plotted.map PlottedSolver.color = [0, 1/2] := by
    rw [h3]
    norm_num [plotLoop, cStats, linspace01, List.range_succ]
  have hlen : out.plotted.length = 2 := by
    have := congrArg List.length hcol
    simpa using this
  refine ⟨out, h1, hlen, hflt, hcol, ?_, ?_⟩
  · rw [hflt]
    norm_num [linspace01, List.range_succ]
  · rw [hcol, hflt]
    norm_num [linspace01, List.range_succ]

/-- A factor record as yielded by the external `load_factors` collaborator;
only the category tag is consumed by the factor plot. -/
structure Factor where
  factor_type : String
deriving DecidableEq

def tagPRIOR : String := "PRIOR"

def tagSAME : String := "SAME"

def tagAND : String := "AND"

def tagINV : String := "INV"

/-- One increment of `factor_counts[f.factor_type] += 1` on the
`defaultdict(lambda: 0)` (eval.py lines 72-74). -/
def tallyStep (cnt : String → Nat) (f : Factor) : String → Nat :=
  fun t => if t = f.factor_type then cnt t + 1 else cnt t

/-- The `factor_counts` defaultdict after the inner loop. -/
def tally (fs : List Factor) : String → Nat :=
  fs.foldl tallyStep (fun _ => 0)

/-- The factor trend chart (eval.py lines 66-94): the four per-dataset count
sequences in append order, the difficulty axis, the fixed 8-tick layout
`np.linspace(1, 64, 8)`, and the optional save path. -/
structure FactorPlot where
  num_prior : List Nat
  num_same : List Nat
  num_and : List Nat
  num_inv : List Nat
  difficulty_axis : List Int
  xticks : List Rat
  saved_to : Option String
deriving DecidableEq

/-- `np.linspace(1, 64, 8)` (line 89): step (64-1)/7 = 9. -/
def factorXTicks : List Rat :=
  (List.range 8).map (fun i : Nat => 1 + (i : Rat) * 9)

/-- Loop of `plot_factors_vs_difficulty` (lines 69-78): per dataset, load the
factor mapping, tally categories over its values, and append the PRIOR, SAME,
AND and INV counts. -/
def factorLoop {D : Type} (load_factors : D → List (Nat × Factor)) :
    List D → List Nat × List Nat × List Nat × List Nat
  | [] => ([], [], [], [])
  | d :: ds =>
    let cnt := tally ((load_factors d).map Prod.snd)
    let r := factorLoop load_factors ds
    (cnt tagPRIOR :: r.1, cnt tagSAME :: r.2.1, cnt tagAND :: r.2.2.1,
      cnt tagINV :: r.2.2.2)

/-- Model of `plot_factors_vs_difficulty(datasets, difficulties, save_to)`
(lines 66-94), parametric in the external factor loader. -/
def plot_factors_vs_difficulty {D : Type} (load_factors : D → List (Nat × Factor))
    (datasets : List D) (difficulties : List Int) (save_to : Option String) :
    FactorPlot :=
  let r := factorLoop load_factors datasets
  ⟨r.1, r.2.1, r.2.2.1, r.2.2.2, difficulties, factorXTicks, save_to⟩

lemma tally_go (fs : List Factor) :
    ∀ (cnt : String → Nat) (t : String),
      fs.foldl tallyStep cnt t = cnt t + fs.countP (fun f => f.factor_type == t) := by
  induction fs with
  | nil => intro cnt t; simp
  | cons f fs ih =>
    intro cnt t
    rw [List.foldl_cons, ih, List.countP_cons]
    simp only [tallyStep]
    by_cases h : t = f.factor_type
    · rw [if_pos h, if_pos (by simp [h.symm])]
      omega
    · rw [if_neg h, if_neg (by simp; exact fun hc => h hc.symm)]
      omega

lemma tally_countP (fs : List Factor) (t : String) :
    tally fs t = fs.countP (fun f => f.factor_type == t) := by
  simpa using tally_go fs (fun _ => 0) t

/-- Example factor mapping with 2 PRIOR, 1 SAME, 3 AND and 0 INV factors. -/
def exFactors : List (Nat × Factor) :=
  [(0, ⟨tagPRIOR⟩), (1, ⟨tagPRIOR⟩), (2, ⟨tagSAME⟩),
    (3, ⟨tagAND⟩), (4, ⟨tagAND⟩), (5, ⟨tagAND⟩)]

/-- C7: for every dataset the four appended counts are exactly the numbers of
loaded factors tagged PRIOR, SAME, AND and INV respectively — a factor with
any other tag is counted nowhere — and on a dataset holding 2 PRIOR, 1 SAME,
3 AND and 0 INV factors the appended counts are (2, 1, 3, 0). -/
theorem plot_factors_counts_per_category :
    (∀ (D : Type) (load_factors : D → List (Nat × Factor)) (datasets : List D)
        (difficulties : List Int) (save_to : Option String),
      (plot_factors_vs_difficulty load_factors datasets difficulties save_to).num_prior
          = datasets.map (fun d => ((load_factors d).map Prod.snd).countP
              (fun f => f.factor_type == tagPRIOR)) ∧
      (plot_factors_vs_difficulty load_factors datasets difficulties save_to).num_same
          = datasets.map (fun d => ((load_factors d).map Prod.snd).countP
              (fun f => f.factor_type == tagSAME)) ∧
      (plot_factors_vs_difficulty load_factors datasets difficulties save_to).num_and
          = datasets.map (fun d => ((load_factors d).map Prod.snd).countP
              (fun f => f.factor_type == tagAND)) ∧
      (plot_factors_vs_difficulty load_factors datasets difficulties save_to).num_inv
          = datasets.map (fun d => ((load_factors d).map Prod.snd).countP
              (fun f => f.factor_type == tagINV))) ∧
    ((plot_factors_vs_difficulty (fun _ : Unit => exFactors) [()] [1] none).num_prior = [2] ∧
     (plot_factors_vs_difficulty (fun _ : Unit => exFactors) [()] [1] none).num_same = [1] ∧
     (plot_factors_vs_difficulty (fun _ : Unit => exFactors) [()] [1] none).num_and = [3] ∧
     (plot_factors_vs_difficulty (fun _ : Unit => exFactors) [()] [1] none).num_inv = [0]) := by
  have hloop : ∀ (D : Type) (load_factors : D → List (Nat × Factor)) (datasets : List D),
      factorLoop load_factors datasets =
        (datasets.map (fun d => tally ((load_factors d).map Prod.snd) tagPRIOR),
          datasets.map (fun d => tally ((load_factors d).map Prod.snd) tagSAME),
          datasets.map (fun d => tally ((load_factors d).map Prod.snd) tagAND),
          datasets.map (fun d => tally ((load_factors d).map Prod.snd) tagINV)) := by
    intro D load_factors datasets
    induction datasets with
    | nil => rfl
    | cons d ds ih => simp [factorLoop, ih]
  constructor
  · intro D load_factors datasets difficulties save_to
    refine ⟨?_, ?_, ?_, ?_⟩ <;>
      simp [plot_factors_vs_difficulty, hloop, tally_countP]
  · refine ⟨?_, ?_, ?_, ?_⟩ <;>
      · simp only [plot_factors_vs_difficulty, hloop, tally_countP]
        decide

end EvalPy
